import Mathlib

set_option maxRecDepth 20000

/-!
Verification of the srt-relay program (src/main.rs).

The program relays SRT packets from publisher connections to subscriber
connections through a `tokio::sync::broadcast` channel of capacity 1024.
We shallowly embed:

* the broadcast channel used at `main.rs:29` (`broadcast::channel::<Bytes>(1024)`),
  with `send` (`main.rs:87`), `subscribe` (`main.rs:119`) and `recv`
  (`main.rs:139`) following the semantics of `tokio::sync::broadcast`:
  a bounded ring buffer of the most recent `cap` frames, per-receiver
  cursors, lazy lag detection at `recv` time;
* the per-connection session loops `process_input_stream` and
  `process_output_stream`, and the accept loops of `handle_input` and
  `handle_output`, as functions over finite traces of transport events;
* the startup logic of `main` (argument count check, address parsing,
  task spawning and joining).

Frame payloads (`Bytes`) are opaque to the relay, so the channel is
parametric in the payload type `α`.
-/

/-- State of the broadcast channel created at `main.rs:29`.
`hist` records every successfully published frame, newest first; only the
`cap` newest entries are readable (the ring buffer), older ones are evicted.
`rxCnt` is the number of live receivers (tokio's `rx_cnt`); the receiver
returned by `broadcast::channel` itself is dropped immediately at
`main.rs:29` (`let (tx, _) = ...`), so the initial count is 0.
`closed` models all senders having been dropped. -/
structure Chan (α : Type) : Type where
  cap : Nat
  hist : List α
  closed : Bool
  rxCnt : Nat

/-- Total number of frames ever published to the channel (tokio's `tail.pos`). -/
def Chan.pos {α : Type} (s : Chan α) : Nat := s.hist.length

/-- Index of the oldest frame still retained by the ring buffer: all frames
with smaller index have been overwritten. -/
def Chan.oldest {α : Type} (s : Chan α) : Nat := s.pos - min s.pos s.cap

/-- The channel constructor `broadcast::channel(cap)` as used at `main.rs:29`:
empty history, initial receiver already dropped. -/
def channel (α : Type) (cap : Nat) : Chan α := ⟨cap, [], false, 0⟩

/-- The publish operation `tx.send(packet)` at `main.rs:87`: if there are no
receivers it returns `SendError` and the frame is dropped (tokio checks
`tail.rx_cnt == 0` before writing); otherwise it stores the frame
(overwriting the oldest slot when full) and returns the number of active
receivers. It never blocks: it is a total function. -/
def send {α : Type} (s : Chan α) (f : α) : Chan α × Except Unit Nat :=
  if s.rxCnt = 0 then (s, Except.error ())
  else ({ s with hist := f :: s.hist }, Except.ok s.rxCnt)

/-- The subscribe operation `tx.subscribe()` at `main.rs:119`: returns a new
cursor positioned at the current tail `pos` and increments the receiver
count. -/
def subscribe {α : Type} (s : Chan α) : Nat × Chan α :=
  (s.pos, { s with rxCnt := s.rxCnt + 1 })

/-- The frame stored at publish index `i` (0-based, publish order); `hist` is
newest first, so index `i` lives at list position `pos - 1 - i`. -/
def frameAt {α : Type} [Inhabited α] (s : Chan α) (i : Nat) : α :=
  s.hist.getD (s.pos - 1 - i) default

/-- All published frames in publish order. -/
def publishedOrder {α : Type} (s : Chan α) : List α := s.hist.reverse

/-- Result of one `rx.recv().await` at `main.rs:139`. `pending` models the
suspension of the awaiting task until a new frame arrives (the session code
never observes it as a value). -/
inductive RecvResult (α : Type) : Type where
  | frame (a : α)
  | lagged (n : Nat)
  | closed
  | pending
deriving DecidableEq

/-- The receive operation of a subscription with cursor `c`, following
`tokio::sync::broadcast::Receiver::recv`: if the cursor's slot has been
overwritten (`c < oldest`) the call returns `Lagged(oldest - c)` and the
cursor jumps to the oldest retained frame; otherwise the next frame is
delivered if one exists; otherwise `Closed` if the channel is closed,
else the task suspends. Returns the result and the updated cursor. -/
def recv {α : Type} [Inhabited α] (s : Chan α) (c : Nat) : RecvResult α × Nat :=
  if c < s.oldest then (.lagged (s.oldest - c), s.oldest)
  else if c < s.pos then (.frame (frameAt s c), c + 1)
  else if s.closed then (.closed, c)
  else (.pending, c)

/-- Publishing a list of frames in order (repeated `tx.send` at `main.rs:87`). -/
def sendAll {α : Type} (s : Chan α) (fs : List α) : Chan α :=
  fs.foldl (fun t f => (send t f).1) s

/-- Pulling from a subscription `n` times in a row with no interleaved
publish, collecting the delivered frames (the read side of the loop at
`main.rs:138`). -/
def pullN {α : Type} [Inhabited α] : Nat → Chan α → Nat → List α
  | 0, _, _ => []
  | n + 1, s, c =>
    match recv s c with
    | (.frame a, c') => a :: pullN n s c'
    | (.lagged _, c') => pullN n s c'
    | (.closed, _) => []
    | (.pending, _) => []

/-- One interaction step visible to a fixed subscription: either some
publisher session publishes a frame, or the subscription pulls once. -/
inductive ChanOp (α : Type) : Type where
  | pub (f : α)
  | pull

/-- A subscription's view of an execution: the channel, its cursor, and the
frames delivered to it so far (in delivery order). -/
structure SubRun (α : Type) : Type where
  chan : Chan α
  cursor : Nat
  delivered : List α

/-- Interleaved execution step: a publish updates the channel; a pull runs
`recv`, appending the frame to `delivered` when one is returned and
advancing the cursor as `recv` dictates. -/
def SubRun.step {α : Type} [Inhabited α] (v : SubRun α) : ChanOp α → SubRun α
  | .pub f => { v with chan := (send v.chan f).1 }
  | .pull =>
    match recv v.chan v.cursor with
    | (.frame a, c') => { v with cursor := c', delivered := v.delivered ++ [a] }
    | (.lagged _, c') => { v with cursor := c' }
    | (.closed, c') => { v with cursor := c' }
    | (.pending, c') => { v with cursor := c' }

/-- Run a whole interleaved execution. -/
def SubRun.run {α : Type} [Inhabited α] (v : SubRun α) (ops : List (ChanOp α)) : SubRun α :=
  ops.foldl SubRun.step v

/-- The view of a subscription freshly created on channel `s`
(`tx.subscribe()` at `main.rs:119`): cursor at the current tail, nothing
delivered yet. -/
def SubRun.start {α : Type} (s : Chan α) : SubRun α :=
  { chan := (subscribe s).2, cursor := (subscribe s).1, delivered := [] }

/-- Invariant of a subscription view relative to the cursor `c₀` it started
at: the cursor only moves forward and stays within the published range, and
the delivered frames are exactly the frames at some strictly increasing list
of publish indices, all at or after `c₀` and below the cursor. -/
def GoodRun {α : Type} [Inhabited α] (c₀ : Nat) (v : SubRun α) : Prop :=
  c₀ ≤ v.cursor ∧ v.cursor ≤ v.chan.pos ∧
  ∃ idxs : List Nat, idxs.Pairwise (· < ·) ∧
    (∀ i ∈ idxs, c₀ ≤ i ∧ i < v.cursor) ∧
    v.delivered = idxs.map (frameAt v.chan)

/-- The count C3 says publish returns, read off the spec's words: the number
of subscriptions that received the frame without lag at the time of the
publish, i.e. whose cursor is not below the retained window of the channel
state `s'` right after the publish. Compared against what `tx.send` actually
returns. -/
def specNonLaggedCount {α : Type} (s' : Chan α) (cursors : List Nat) : Nat :=
  (cursors.filter (fun c => decide (s'.oldest ≤ c))).length

/-- One observable event of a subscriber session loop (`main.rs:137-159`):
the outcome of `rx.recv().await` together with, for a delivered frame, the
outcome of the `socket.send` write on the transport. -/
inductive OutEvent (α : Type) : Type where
  | recvFrame (a : α) (writeOk : Bool)
  | recvLagged (n : Nat)
  | recvClosed
deriving DecidableEq

/-- How a session function left its loop: `ok` models `return Ok(())`, `err`
models `return Err(..)`, `running` means the finite event trace ended with
the loop still going. -/
inductive SessionExit : Type where
  | ok
  | err
  | running
deriving DecidableEq

/-- The subscriber session loop `process_output_stream` (`main.rs:137-159`)
over a finite event trace. Returns how the session ended and the frames it
wrote to the transport, in order: a delivered frame is written (write
failure ends the session with `Err`), `Lagged` is only logged and the loop
continues with nothing resent, `Closed` ends the session cleanly with
`Ok(())`. -/
def process_output_stream {α : Type} : List (OutEvent α) → SessionExit × List α
  | [] => (.running, [])
  | .recvFrame a w :: evs =>
    if w then
      ((process_output_stream evs).1, a :: (process_output_stream evs).2)
    else (.err, [])
  | .recvLagged _ :: evs => process_output_stream evs
  | .recvClosed :: _ => (.ok, [])

/-- One observable event of a publisher session loop (`main.rs:80-104`): the
outcome of `socket.next().await`; the end of the trace models end-of-stream
(`None`), which ends the `while let` with `Ok(())`. -/
inductive InEvent (α : Type) : Type where
  | readOk (f : α)
  | readErr
deriving DecidableEq

/-- The publisher session loop `process_input_stream` (`main.rs:80-104`) over
a finite event trace, threading the broadcast channel: every successfully
read frame is passed to `tx.send`, whose result is only logged (both the
`Ok(count)` and the `Err` arm continue the loop, `main.rs:92-98`); a read
error ends the session with `Err`; end-of-stream ends it with `Ok(())`. -/
def process_input_stream {α : Type} : Chan α → List (InEvent α) → Chan α × SessionExit
  | s, [] => (s, .ok)
  | s, .readOk f :: evs => process_input_stream (send s f).1 evs
  | s, .readErr :: _ => (s, .err)

/-- Outcome of one `request.accept(None).await` in an accept loop. -/
inductive AcceptEvent : Type where
  | acceptOk
  | acceptErr
deriving DecidableEq

/-- The accept loop of `handle_input` (`main.rs:55-75`) over a finite trace
of incoming connection requests: an accepted connection spawns a publisher
session, a failed accept is logged and the loop continues. Returns the
number of sessions spawned. -/
def handle_input_loop : List AcceptEvent → Nat
  | [] => 0
  | .acceptOk :: evs => handle_input_loop evs + 1
  | .acceptErr :: evs => handle_input_loop evs

/-- The accept loop of `handle_output` (`main.rs:111-132`): an accepted
connection calls `tx.subscribe()` (`main.rs:119`) and spawns a subscriber
session, a failed accept is logged and the loop continues. Returns the
channel after all the subscribes and the number of sessions spawned. -/
def handle_output_loop {α : Type} : Chan α → List AcceptEvent → Chan α × Nat
  | s, [] => (s, 0)
  | s, .acceptOk :: evs =>
    ((handle_output_loop (subscribe s).2 evs).1,
      (handle_output_loop (subscribe s).2 evs).2 + 1)
  | s, .acceptErr :: evs => handle_output_loop s evs

/-- Outcome of `SrtListener::builder().bind(addr).await` at `main.rs:51` and
`main.rs:112`. -/
inductive BindResult : Type where
  | ok
  | failed
deriving DecidableEq

/-- Value returned by `handle_input` / `handle_output` to the spawn wrapper:
`Ok(())` after the incoming stream ends, or the bind error propagated by
`?` at `main.rs:51` / `main.rs:112`. -/
inductive HandlerResult : Type where
  | ok
  | bindErr
deriving DecidableEq

/-- The `handle_input` task body (`main.rs:50-78`): a failed bind returns the
error at once (the `?` on `main.rs:51`) with no session spawned; otherwise
the accept loop runs to the end of the trace and the function returns
`Ok(())`. -/
def handle_input (b : BindResult) (evs : List AcceptEvent) : HandlerResult × Nat :=
  match b with
  | .failed => (.bindErr, 0)
  | .ok => (.ok, handle_input_loop evs)

/-- The `handle_output` task body (`main.rs:106-135`), symmetric to
`handle_input`. -/
def handle_output {α : Type} (b : BindResult) (s : Chan α) (evs : List AcceptEvent) :
    HandlerResult × Chan α × Nat :=
  match b with
  | .failed => (.bindErr, s, 0)
  | .ok => (.ok, (handle_output_loop s evs).1, (handle_output_loop s evs).2)

/-- The orchestration of `main` after successful argument parsing
(`main.rs:29-48`), for a run in which both incoming streams are finite so
that `tokio::join!` (`main.rs:46`) completes: `main` creates the channel,
spawns both handler tasks — each of which merely logs its handler's error
(`main.rs:34-37`, `main.rs:40-43`) — awaits them, and returns `Ok(())`,
i.e. exit code 0, unconditionally. Returns the exit code, the number of
publisher sessions spawned and the number of subscriber sessions spawned. -/
def relayMain (α : Type) (ib ob : BindResult) (inEvs outEvs : List AcceptEvent) :
    Nat × Nat × Nat :=
  (0, (handle_input ib inEvs).2, (handle_output ob (channel α 1024) outEvs).2.2)

/-- Result of the startup argument handling in `main` (`main.rs:14-23`). -/
inductive Startup (A : Type) : Type where
  | usage (stderrLines : List String) (exitCode : Nat)
  | parseFail (exitCode : Nat)
  | proceed (input output : A)
deriving DecidableEq

/-- The argument handling of `main` (`main.rs:14-23`): with an argument
vector whose length differs from 3 (program name plus two positionals), the
usage lines are printed to standard error and the process exits with code 1
(`main.rs:15-19`); otherwise each address is parsed, a parse failure
propagating through `?` out of `main` as an `Err`, which terminates the
process with the non-zero exit code 1. The address parser itself
(`str::parse::<SocketAddr>`) is external to the repository, so it is a
parameter. -/
def mainStartup {A : Type} (parse : String → Option A) (args : List String) : Startup A :=
  if args.length ≠ 3 then
    .usage ["Usage: " ++ args.headD "" ++ " <input_address> <output_address>",
      "Example: " ++ args.headD "" ++ " 0.0.0.0:10001 0.0.0.0:11001"] 1
  else
    match parse (args.getD 1 "") with
    | none => .parseFail 1
    | some a =>
      match parse (args.getD 2 "") with
      | none => .parseFail 1
      | some b => .proceed a b

/-- C5: if a subscription with cursor `c` has failed to read `K = pos - c`
frames and `K` exceeds the capacity `C = cap`, its next pull returns exactly
one `Lagged` indication carrying the skipped count `K - C`, with the cursor
advanced to the oldest retained frame `pos - cap`; the pull after that
delivers that oldest retained frame itself (no duplicate, no frame skipped
without the `Lagged` signal). -/
theorem recv_lag_once {α : Type} [Inhabited α] (s : Chan α) (c : Nat)
    (hcap : 0 < s.cap) (hK : s.cap < s.pos - c) :
    recv s c = (.lagged (s.pos - s.cap - c), s.pos - s.cap) ∧
    recv s (s.pos - s.cap) =
      (.frame (frameAt s (s.pos - s.cap)), s.pos - s.cap + 1) := by
  have holdest : s.oldest = s.pos - s.cap := by
    unfold Chan.oldest; omega
  constructor
  · unfold recv
    rw [holdest, if_pos (by omega)]
  · unfold recv
    rw [holdest, if_neg (by omega), if_pos (by omega)]

/-- Witness for C5 at a concrete channel state: capacity 1024, 1030 frames
published, cursor still at 0. -/
theorem recv_lag_once_witness :
    (0 : Nat) < (Chan.mk 1024 (List.replicate 1030 (37 : Nat)) false 1).cap ∧
    (Chan.mk 1024 (List.replicate 1030 (37 : Nat)) false 1).cap <
      (Chan.mk 1024 (List.replicate 1030 (37 : Nat)) false 1).pos - 0 ∧
    (recv (Chan.mk 1024 (List.replicate 1030 (37 : Nat)) false 1) 0 =
      (.lagged ((Chan.mk 1024 (List.replicate 1030 (37 : Nat)) false 1).pos - 1024 - 0),
        (Chan.mk 1024 (List.replicate 1030 (37 : Nat)) false 1).pos - 1024) ∧
     recv (Chan.mk 1024 (List.replicate 1030 (37 : Nat)) false 1)
        ((Chan.mk 1024 (List.replicate 1030 (37 : Nat)) false 1).pos - 1024) =
      (.frame (frameAt (Chan.mk 1024 (List.replicate 1030 (37 : Nat)) false 1)
          ((Chan.mk 1024 (List.replicate 1030 (37 : Nat)) false 1).pos - 1024)),
        (Chan.mk 1024 (List.replicate 1030 (37 : Nat)) false 1).pos - 1024 + 1)) :=
  ⟨by decide, by simp [Chan.pos],
    recv_lag_once (Chan.mk 1024 (List.replicate 1030 (37 : Nat)) false 1) 0
      (by decide) (by simp [Chan.pos])⟩

/-- Publishing preserves the capacity. -/
theorem send_cap {α : Type} (s : Chan α) (f : α) : ((send s f).1).cap = s.cap := by
  unfold send; split <;> rfl

/-- Publishing preserves the receiver count. -/
theorem send_rxCnt {α : Type} (s : Chan α) (f : α) : ((send s f).1).rxCnt = s.rxCnt := by
  unfold send; split <;> rfl

/-- Publishing preserves the closed flag. -/
theorem send_closed {α : Type} (s : Chan α) (f : α) : ((send s f).1).closed = s.closed := by
  unfold send; split <;> rfl

/-- Publishing never rewinds the sequence counter. -/
theorem send_pos_le {α : Type} (s : Chan α) (f : α) : s.pos ≤ ((send s f).1).pos := by
  unfold send
  split
  · exact Nat.le_refl _
  · simp [Chan.pos]

/-- Publishing with at least one receiver appends the frame to the history. -/
theorem send_hist {α : Type} (s : Chan α) (f : α) (h : s.rxCnt ≠ 0) :
    (send s f).1.hist = f :: s.hist ∧ (send s f).2 = Except.ok s.rxCnt := by
  unfold send; rw [if_neg h]; exact ⟨rfl, rfl⟩

/-- Frames already published are unchanged by a later publish. -/
theorem frameAt_send {α : Type} [Inhabited α] (s : Chan α) (f : α) (i : Nat)
    (h : i < s.pos) : frameAt ((send s f).1) i = frameAt s i := by
  unfold send
  split
  · rfl
  · unfold frameAt Chan.pos at *
    simp only [List.length_cons]
    have h2 : s.hist.length + 1 - 1 - i = (s.hist.length - 1 - i) + 1 := by omega
    rw [h2, List.getD_cons_succ]

/-- The subscription-view invariant holds at subscription creation. -/
theorem goodRun_start {α : Type} [Inhabited α] (s : Chan α) :
    GoodRun ((subscribe s).1) (SubRun.start s) := by
  exact ⟨Nat.le_refl _, Nat.le_refl _, [], List.Pairwise.nil, by simp, rfl⟩

/-- The subscription-view invariant is preserved by every interleaved step. -/
theorem goodRun_step {α : Type} [Inhabited α] (c₀ : Nat) (v : SubRun α) (op : ChanOp α)
    (h : GoodRun c₀ v) : GoodRun c₀ (v.step op) := by
  obtain ⟨h1, h2, idxs, hp, hb, hd⟩ := h
  cases op with
  | pub f =>
    refine ⟨h1, Nat.le_trans h2 (send_pos_le _ _), idxs, hp, hb, ?_⟩
    show v.delivered = idxs.map (frameAt ((send v.chan f).1))
    rw [hd]
    apply List.map_congr_left
    intro i hi
    exact (frameAt_send v.chan f i (Nat.lt_of_lt_of_le (hb i hi).2 h2)).symm
  | pull =>
    by_cases hl : v.cursor < v.chan.oldest
    · have hrecv : recv v.chan v.cursor =
          (.lagged (v.chan.oldest - v.cursor), v.chan.oldest) := by
        unfold recv; rw [if_pos hl]
      simp only [SubRun.step, hrecv]
      have hop : v.chan.oldest ≤ v.chan.pos := by
        unfold Chan.oldest; omega
      exact ⟨by dsimp only; omega, by dsimp only; omega, idxs, hp,
        fun i hi => ⟨(hb i hi).1, by dsimp only; have := (hb i hi).2; omega⟩, hd⟩
    · by_cases hf : v.cursor < v.chan.pos
      · have hrecv : recv v.chan v.cursor =
            (.frame (frameAt v.chan v.cursor), v.cursor + 1) := by
          unfold recv; rw [if_neg hl, if_pos hf]
        simp only [SubRun.step, hrecv]
        refine ⟨by dsimp only; omega, by dsimp only; omega,
          idxs ++ [v.cursor], ?_, ?_, ?_⟩
        · rw [List.pairwise_append]
          exact ⟨hp, List.pairwise_singleton _ _,
            fun a ha b hbm => by simp at hbm; subst hbm; exact (hb a ha).2⟩
        · intro i hi
          dsimp only
          rcases List.mem_append.1 hi with hi | hi
          · exact ⟨(hb i hi).1, by have := (hb i hi).2; omega⟩
          · simp at hi; subst hi; exact ⟨h1, by omega⟩
        · dsimp only
          simp only [List.map_append, List.map_cons, List.map_nil]
          rw [hd]
      · cases hcl : v.chan.closed
        · have hrecv : recv v.chan v.cursor = (.pending, v.cursor) := by
            unfold recv; rw [if_neg hl, if_neg hf, hcl, if_neg (by simp)]
          simp only [SubRun.step, hrecv]
          exact ⟨h1, h2, idxs, hp, hb, hd⟩
        · have hrecv : recv v.chan v.cursor = (.closed, v.cursor) := by
            unfold recv; rw [if_neg hl, if_neg hf, hcl, if_pos rfl]
          simp only [SubRun.step, hrecv]
          exact ⟨h1, h2, idxs, hp, hb, hd⟩

/-- The subscription-view invariant is preserved by whole executions. -/
theorem goodRun_run {α : Type} [Inhabited α] (c₀ : Nat) (v : SubRun α)
    (ops : List (ChanOp α)) (h : GoodRun c₀ v) : GoodRun c₀ (v.run ops) := by
  induction ops generalizing v with
  | nil => exact h
  | cons op ops IH => exact IH _ (goodRun_step c₀ v op h)

/-- Mapping a pointwise lookup over a strictly increasing list of indices,
all in range, yields a sublist. -/
theorem getD_map_sublist {α : Type} (d : α) :
    ∀ (l : List α) (idxs : List Nat) (k : Nat), idxs.Pairwise (· < ·) →
      (∀ i ∈ idxs, k ≤ i ∧ i < k + l.length) →
      List.Sublist (idxs.map (fun i => l.getD (i - k) d)) l := by
  intro l
  induction l with
  | nil =>
    intro idxs k hp hb
    cases idxs with
    | nil => simp
    | cons i rest =>
      exact absurd (hb i (by simp)) (by simp only [List.length_nil]; omega)
  | cons x tl IH =>
    intro idxs k hp hb
    cases idxs with
    | nil => simp
    | cons i rest =>
      rw [List.pairwise_cons] at hp
      obtain ⟨hall, hrest⟩ := hp
      obtain ⟨hki, hil⟩ := hb i (by simp)
      by_cases hik : i = k
      · subst hik
        rw [List.map_cons]
        have hx : (x :: tl).getD (i - i) d = x := by simp
        rw [hx]
        have hmap : rest.map (fun j => (x :: tl).getD (j - i) d) =
            rest.map (fun j => tl.getD (j - (i + 1)) d) := by
          apply List.map_congr_left
          intro j hj
          have hji : i < j := hall j hj
          have h1 : j - i = (j - (i + 1)) + 1 := by omega
          rw [h1, List.getD_cons_succ]
        rw [hmap]
        refine List.Sublist.cons₂ x (IH rest (i + 1) hrest ?_)
        intro j hj
        have hji : i < j := hall j hj
        have := (hb j (List.mem_cons_of_mem _ hj)).2
        simp only [List.length_cons] at this
        omega
      · have hmap : (i :: rest).map (fun j => (x :: tl).getD (j - k) d) =
            (i :: rest).map (fun j => tl.getD (j - (k + 1)) d) := by
          apply List.map_congr_left
          intro j hj
          have hkj : k + 1 ≤ j := by
            rcases List.mem_cons.1 hj with hj | hj
            · omega
            · have := hall j hj; omega
          have h1 : j - k = (j - (k + 1)) + 1 := by omega
          rw [h1, List.getD_cons_succ]
        rw [hmap]
        refine List.Sublist.cons x (IH (i :: rest) (k + 1) (List.pairwise_cons.mpr ⟨hall, hrest⟩) ?_)
        intro j hj
        have hkj : k + 1 ≤ j := by
          rcases List.mem_cons.1 hj with hj | hj
          · omega
          · have := hall j hj; omega
        have := (hb j hj).2
        simp only [List.length_cons] at this
        omega

/-- Reading the published sequence at index `i` agrees with `frameAt`. -/
theorem publishedOrder_getD {α : Type} [Inhabited α] (s : Chan α) (i : Nat)
    (h : i < s.pos) : (publishedOrder s).getD i default = frameAt s i := by
  unfold publishedOrder frameAt Chan.pos at *
  rw [List.getD_eq_getElem?_getD, List.getD_eq_getElem?_getD,
    List.getElem?_reverse h]

/-- Any subscription view satisfying the invariant has delivered a sublist of
the published sequence. -/
theorem delivered_sublist {α : Type} [Inhabited α] (c₀ : Nat) (v : SubRun α)
    (h : GoodRun c₀ v) : List.Sublist v.delivered (publishedOrder v.chan) := by
  obtain ⟨h1, h2, idxs, hp, hb, hd⟩ := h
  rw [hd]
  have hmap : idxs.map (frameAt v.chan) =
      idxs.map (fun i => (publishedOrder v.chan).getD (i - 0) default) := by
    apply List.map_congr_left
    intro i hi
    rw [Nat.sub_zero, publishedOrder_getD v.chan i (Nat.lt_of_lt_of_le (hb i hi).2 h2)]
  rw [hmap]
  apply getD_map_sublist default (publishedOrder v.chan) idxs 0 hp
  intro i hi
  refine ⟨Nat.zero_le _, ?_⟩
  have : (publishedOrder v.chan).length = v.chan.pos := by
    unfold publishedOrder Chan.pos; exact List.length_reverse _
  rw [this]
  simp only [Nat.zero_add]
  exact Nat.lt_of_lt_of_le (hb i hi).2 h2

/-- Publishing a list of frames with a live receiver appends them all, and
leaves the receiver count, capacity and closed flag unchanged. -/
theorem sendAll_spec {α : Type} :
    ∀ (fs : List α) (s : Chan α), s.rxCnt ≠ 0 →
      (sendAll s fs).hist = fs.reverse ++ s.hist ∧
      (sendAll s fs).rxCnt = s.rxCnt ∧
      (sendAll s fs).cap = s.cap ∧ (sendAll s fs).closed = s.closed := by
  intro fs
  induction fs with
  | nil => intro s h; simp [sendAll]
  | cons f fs IH =>
    intro s h
    have hsend : send s f = ({ s with hist := f :: s.hist }, Except.ok s.rxCnt) := by
      unfold send; rw [if_neg h]
    have hstep : sendAll s (f :: fs) = sendAll { s with hist := f :: s.hist } fs := by
      unfold sendAll
      rw [List.foldl_cons, hsend]
    rw [hstep]
    obtain ⟨ha, hb', hc, hd'⟩ := IH { s with hist := f :: s.hist } h
    refine ⟨?_, hb', hc, hd'⟩
    rw [ha]
    simp

/-- Draining a subscription whose cursor is at or past the retained window
start returns exactly the published frames from the cursor on, in order. -/
theorem pullN_eq_take {α : Type} [Inhabited α] (s : Chan α) :
    ∀ (n c : Nat), s.oldest ≤ c →
      pullN n s c = ((publishedOrder s).drop c).take n := by
  intro n
  induction n with
  | zero => intro c h; simp [pullN]
  | succ n IH =>
    intro c h
    have hlen : (publishedOrder s).length = s.pos := by
      unfold publishedOrder Chan.pos
      exact List.length_reverse _
    by_cases hc : c < s.pos
    · have hrecv : recv s c = (.frame (frameAt s c), c + 1) := by
        unfold recv
        rw [if_neg (by omega), if_pos hc]
      have hpull : pullN (n + 1) s c = frameAt s c :: pullN n s (c + 1) := by
        simp only [pullN, hrecv]
      rw [hpull, IH (c + 1) (by omega)]
      have hcl : c < (publishedOrder s).length := by omega
      rw [List.drop_eq_getElem_cons hcl, List.take_succ_cons]
      have hget : (publishedOrder s)[c] = frameAt s c := by
        rw [← List.getD_eq_getElem (publishedOrder s) default hcl]
        exact publishedOrder_getD s c hc
      rw [hget]
    · have hdrop : (publishedOrder s).drop c = [] :=
        List.drop_eq_nil_of_le (by omega)
      cases hclosed : s.closed
      · have hrecv : recv s c = (.pending, c) := by
          unfold recv
          rw [if_neg (by omega), if_neg hc, hclosed, if_neg (by simp)]
        have hpull : pullN (n + 1) s c = [] := by
          simp only [pullN, hrecv]
        rw [hpull, hdrop, List.take_nil]
      · have hrecv : recv s c = (.closed, c) := by
          unfold recv
          rw [if_neg (by omega), if_neg hc, hclosed, if_pos rfl]
        have hpull : pullN (n + 1) s c = [] := by
          simp only [pullN, hrecv]
        rw [hpull, hdrop, List.take_nil]

/-- C4: the frames a subscription receives across any interleaved execution
form a subsequence of the published sequence with payloads unchanged: publish
order, no reorder, no duplicates, skips only on lag. In particular, after `N`
publishes with no ring-buffer overflow (`N ≤ 1024`), a subscription created
before the first publish drains exactly those `N` frames in published
order. -/
theorem subscription_ordered {α : Type} [Inhabited α] :
    (∀ (s₀ : Chan α) (ops : List (ChanOp α)),
      List.Sublist ((SubRun.start s₀).run ops).delivered
        (publishedOrder ((SubRun.start s₀).run ops).chan)) ∧
    (∀ fs : List α, fs.length ≤ 1024 →
      pullN fs.length (sendAll ((subscribe (channel α 1024)).2) fs) 0 = fs) := by
  constructor
  · intro s₀ ops
    exact delivered_sublist _ _ (goodRun_run _ _ ops (goodRun_start s₀))
  · intro fs hlen
    have hrx : ((subscribe (channel α 1024)).2).rxCnt ≠ 0 := by
      simp [subscribe, channel]
    obtain ⟨hh, _, hcap, _⟩ := sendAll_spec fs _ hrx
    have hhist : (sendAll ((subscribe (channel α 1024)).2) fs).hist = fs.reverse := by
      rw [hh]; simp [subscribe, channel]
    have hpos : (sendAll ((subscribe (channel α 1024)).2) fs).pos = fs.length := by
      unfold Chan.pos; rw [hhist]; simp
    have hcap' : (sendAll ((subscribe (channel α 1024)).2) fs).cap = 1024 := by
      rw [hcap]; rfl
    have hold : (sendAll ((subscribe (channel α 1024)).2) fs).oldest = 0 := by
      unfold Chan.oldest; rw [hpos, hcap']; omega
    have hpub : publishedOrder (sendAll ((subscribe (channel α 1024)).2) fs) = fs := by
      unfold publishedOrder; rw [hhist]; simp
    rw [pullN_eq_take _ fs.length 0 (by omega), hpub, List.drop_zero,
      List.take_length]

/-- Witness for C4 at a concrete run: three frames published after
subscription, all drained back in order. -/
theorem subscription_ordered_witness :
    ([10, 20, 30] : List Nat).length ≤ 1024 ∧
    pullN ([10, 20, 30] : List Nat).length
      (sendAll ((subscribe (channel Nat 1024)).2) [10, 20, 30]) 0 = [10, 20, 30] :=
  ⟨by decide, (@subscription_ordered Nat _).2 [10, 20, 30] (by decide)⟩

/-- C6: a subscription starts at the current tail and never sees history:
its cursor is created at `pos`; over any interleaved execution every frame
it is delivered sits at a publish index at or after the creation point
(so frames published before creation are never delivered); and the first
frame published after creation is exactly the next frame it can pull. -/
theorem subscribe_at_tail {α : Type} [Inhabited α] :
    (∀ s : Chan α, (subscribe s).1 = s.pos) ∧
    (∀ (s₀ : Chan α) (ops : List (ChanOp α)),
      ∃ idxs : List Nat,
        ((SubRun.start s₀).run ops).delivered =
          idxs.map (frameAt ((SubRun.start s₀).run ops).chan) ∧
        ∀ i ∈ idxs, s₀.pos ≤ i) ∧
    (∀ (s₀ : Chan α) (f : α), 0 < s₀.cap →
      recv (send ((subscribe s₀).2) f).1 ((subscribe s₀).1) =
        (.frame f, s₀.pos + 1)) := by
  refine ⟨fun s => rfl, ?_, ?_⟩
  · intro s₀ ops
    obtain ⟨h1, h2, idxs, hp, hb, hd⟩ := goodRun_run _ _ ops (goodRun_start s₀)
    exact ⟨idxs, hd, fun i hi => (hb i hi).1⟩
  · intro s₀ f hcap
    have hrx : ((subscribe s₀).2).rxCnt ≠ 0 := by simp [subscribe]
    have hsend : (send ((subscribe s₀).2) f).1 =
        { s₀ with hist := f :: s₀.hist, rxCnt := s₀.rxCnt + 1 } := by
      unfold send subscribe
      rw [if_neg (by simp)]
    rw [hsend]
    have hpos2 : ({ s₀ with hist := f :: s₀.hist, rxCnt := s₀.rxCnt + 1 } : Chan α).pos
        = s₀.pos + 1 := by
      simp [Chan.pos]
    have hcap2 : ({ s₀ with hist := f :: s₀.hist, rxCnt := s₀.rxCnt + 1 } : Chan α).cap
        = s₀.cap := rfl
    have hold : ({ s₀ with hist := f :: s₀.hist, rxCnt := s₀.rxCnt + 1 } : Chan α).oldest
        ≤ s₀.pos := by
      unfold Chan.oldest
      rw [hpos2, hcap2]
      omega
    have hsub : (subscribe s₀).1 = s₀.pos := rfl
    rw [hsub]
    unfold recv
    rw [if_neg (by omega), if_pos (by omega)]
    have hfr : frameAt ({ s₀ with hist := f :: s₀.hist, rxCnt := s₀.rxCnt + 1 } : Chan α)
        s₀.pos = f := by
      unfold frameAt
      rw [hpos2]
      simp
    rw [hfr]

/-- Witness for C6: five frames published, then a subscription created, then
a sixth frame published; the subscription's first pull yields the sixth
frame, never any of the first five. -/
theorem subscribe_at_tail_witness :
    0 < (sendAll ((subscribe (channel Nat 1024)).2) [1, 2, 3, 4, 5]).cap ∧
    recv (send ((subscribe (sendAll ((subscribe (channel Nat 1024)).2) [1, 2, 3, 4, 5])).2) 6).1
        ((subscribe (sendAll ((subscribe (channel Nat 1024)).2) [1, 2, 3, 4, 5])).1) =
      (.frame 6, (sendAll ((subscribe (channel Nat 1024)).2) [1, 2, 3, 4, 5]).pos + 1) :=
  ⟨by decide,
    (@subscribe_at_tail Nat _).2.2 (sendAll ((subscribe (channel Nat 1024)).2) [1, 2, 3, 4, 5])
      6 (by decide)⟩

/-- The input accept loop spawns one session per successfully accepted
connection, regardless of interspersed accept failures. -/
theorem handle_input_loop_count :
    ∀ evs : List AcceptEvent,
      handle_input_loop evs = (evs.filter (· == .acceptOk)).length := by
  intro evs
  induction evs with
  | nil => rfl
  | cons e evs IH => cases e <;> simp [handle_input_loop, List.filter_cons, IH]

/-- The output accept loop spawns one session per successfully accepted
connection, regardless of interspersed accept failures. -/
theorem handle_output_loop_count {α : Type} :
    ∀ (evs : List AcceptEvent) (s : Chan α),
      (handle_output_loop s evs).2 = (evs.filter (· == .acceptOk)).length := by
  intro evs
  induction evs with
  | nil => intro s; rfl
  | cons e evs IH => intro s; cases e <;> simp [handle_output_loop, List.filter_cons, IH]

/-- C1 is false on the code at a concrete input: with the input bind failing
and the output bind succeeding, the process does not exit with a non-zero
code — when both handler tasks complete, `main` returns `Ok(())` (exit code
0, `main.rs:48`) — and startup is partial: the output listener keeps running
and spawns a subscriber session for an accepted connection. -/
theorem bind_failure_counterexample :
    relayMain Nat .failed .ok [] [.acceptOk] = (0, 0, 1) ∧
    ¬((relayMain Nat .failed .ok [] [.acceptOk]).1 ≠ 0 ∧
      (relayMain Nat .failed .ok [] [.acceptOk]).2.2 = 0) := by
  exact ⟨rfl, by decide⟩

/-- C1 (amended): if binding either listener fails, the corresponding
handler task ends at once with the bind error, having spawned no sessions —
but the process does not exit with a non-zero code: the error is only logged
by the spawn wrappers (`main.rs:35`, `main.rs:41`), the other listener keeps
accepting and spawning sessions for its whole incoming stream, and when both
handler tasks complete the process exits with code 0. -/
theorem bind_failure_is_only_logged {α : Type} :
    (∀ evs : List AcceptEvent, handle_input .failed evs = (.bindErr, 0)) ∧
    (∀ (s : Chan α) (evs : List AcceptEvent),
      handle_output .failed s evs = (.bindErr, s, 0)) ∧
    (∀ inEvs outEvs : List AcceptEvent,
      relayMain α .failed .ok inEvs outEvs =
        (0, 0, (outEvs.filter (· == .acceptOk)).length)) ∧
    (∀ inEvs outEvs : List AcceptEvent,
      relayMain α .ok .failed inEvs outEvs =
        (0, (inEvs.filter (· == .acceptOk)).length, 0)) := by
  refine ⟨fun evs => rfl, fun s evs => rfl, ?_, ?_⟩
  · intro inEvs outEvs
    unfold relayMain handle_input handle_output
    rw [handle_output_loop_count outEvs]
  · intro inEvs outEvs
    unfold relayMain handle_input handle_output
    rw [handle_input_loop_count inEvs]

/-- C2: an argument vector whose positional count differs from two produces
the usage message on standard error and exit code 1; with exactly two
positionals, a parse failure of either address makes `main` return an error,
terminating the process with the non-zero exit code 1. -/
theorem startup_arg_errors {A : Type} (parse : String → Option A) :
    (∀ (prog : String) (rest : List String), rest.length ≠ 2 →
      mainStartup parse (prog :: rest) =
        .usage ["Usage: " ++ prog ++ " <input_address> <output_address>",
          "Example: " ++ prog ++ " 0.0.0.0:10001 0.0.0.0:11001"] 1 ∧
      (1 : Nat) ≠ 0) ∧
    (∀ (prog a1 a2 : String), parse a1 = none ∨ parse a2 = none →
      mainStartup parse [prog, a1, a2] = .parseFail 1 ∧ (1 : Nat) ≠ 0) := by
  constructor
  · intro prog rest hlen
    refine ⟨?_, by omega⟩
    unfold mainStartup
    rw [if_pos (by simp only [List.length_cons]; omega)]
    rfl
  · intro prog a1 a2 hparse
    refine ⟨?_, by omega⟩
    unfold mainStartup
    rw [if_neg (by simp)]
    rcases hparse with h | h
    · have : [prog, a1, a2].getD 1 "" = a1 := rfl
      rw [this, h]
    · have h1 : [prog, a1, a2].getD 1 "" = a1 := rfl
      have h2 : [prog, a1, a2].getD 2 "" = a2 := rfl
      rw [h1, h2, h]
      cases parse a1 <;> rfl

/-- Witness for C2 at concrete inputs: one positional argument yields the
usage error; two positionals with an unparsable first address yield the
parse failure. -/
theorem startup_arg_errors_witness :
    ((["onlyone"] : List String).length ≠ 2 ∧
      mainStartup (fun _ => (none : Option Nat)) ("relay" :: ["onlyone"]) =
        .usage ["Usage: " ++ "relay" ++ " <input_address> <output_address>",
          "Example: " ++ "relay" ++ " 0.0.0.0:10001 0.0.0.0:11001"] 1 ∧
      (1 : Nat) ≠ 0) ∧
    (((fun _ => (none : Option Nat)) "bad" = none ∨
        (fun _ => (none : Option Nat)) "0.0.0.0:11001" = none) ∧
      mainStartup (fun _ => (none : Option Nat)) ["relay", "bad", "0.0.0.0:11001"] =
        .parseFail 1 ∧ (1 : Nat) ≠ 0) :=
  ⟨⟨by decide,
    (startup_arg_errors (fun _ => (none : Option Nat))).1 "relay" ["onlyone"] (by decide)⟩,
   ⟨Or.inl rfl,
    (startup_arg_errors (fun _ => (none : Option Nat))).2 "relay" "bad" "0.0.0.0:11001"
      (Or.inl rfl)⟩⟩

/-- C3 is false on the code at explicit concrete inputs. First, publish does
not always append the frame to the shared sequence: on the freshly created
channel (zero subscriptions, `main.rs:29`) `tx.send` returns an error and
the history stays empty. Second, the returned count is not the number of
subscriptions that received the frame without lag: on a full channel
(capacity 1024, 1024 frames published) with one subscription still at
cursor 0, the publish evicts the frame that cursor points at — so by the
claim's own definition the count should be 0 — yet `tx.send` returns 1, the
total number of active receivers. -/
theorem publish_count_counterexample :
    ((send (channel Nat 1024) 9).1.hist = [] ∧
      (send (channel Nat 1024) 9).2 = Except.error ()) ∧
    ((send (Chan.mk 1024 (List.replicate 1024 (9 : Nat)) false 1) 9).2 =
        Except.ok 1 ∧
      specNonLaggedCount (send (Chan.mk 1024 (List.replicate 1024 (9 : Nat)) false 1) 9).1
        [0] = 0 ∧
      (1 : Nat) ≠ 0) :=
  ⟨⟨rfl, rfl⟩, ⟨rfl, by decide, by decide⟩⟩

/-- C3 (amended): publish is a total function (it never blocks the
publisher). When no subscription exists it returns an error and discards the
frame, leaving the channel unchanged. When at least one subscription exists
it appends the frame to the shared sequence and returns the total number of
active subscriptions — including any that are lagged. Eviction on overflow
is observational and per-subscription: after the publish, any subscription
whose cursor lies below the retained window receives exactly one `Lagged`
indication at its next pull, with its cursor advanced to the new oldest
retained frame. -/
theorem publish_spec {α : Type} [Inhabited α] (s : Chan α) (f : α) :
    (s.rxCnt = 0 → send s f = (s, Except.error ())) ∧
    (s.rxCnt ≠ 0 →
      (send s f).1.hist = f :: s.hist ∧ (send s f).2 = Except.ok s.rxCnt) ∧
    (∀ c : Nat, c < ((send s f).1).oldest →
      recv (send s f).1 c =
        (.lagged (((send s f).1).oldest - c), ((send s f).1).oldest)) := by
  refine ⟨?_, fun h => send_hist s f h, ?_⟩
  · intro h
    unfold send
    rw [if_pos h]
  · intro c hc
    unfold recv
    rw [if_pos hc]

/-- Witness for C3 (amended) at concrete inputs: the fresh channel for the
no-subscription branch; a full channel with one subscription for the append
branch and for the lagged-cursor branch. -/
theorem publish_spec_witness :
    ((channel Nat 1024).rxCnt = 0 ∧
      send (channel Nat 1024) 9 = (channel Nat 1024, Except.error ())) ∧
    ((Chan.mk 1024 (List.replicate 1024 (9 : Nat)) false 1).rxCnt ≠ 0 ∧
      (send (Chan.mk 1024 (List.replicate 1024 (9 : Nat)) false 1) 9).1.hist =
        9 :: (Chan.mk 1024 (List.replicate 1024 (9 : Nat)) false 1).hist ∧
      (send (Chan.mk 1024 (List.replicate 1024 (9 : Nat)) false 1) 9).2 =
        Except.ok (Chan.mk 1024 (List.replicate 1024 (9 : Nat)) false 1).rxCnt) ∧
    (0 < ((send (Chan.mk 1024 (List.replicate 1024 (9 : Nat)) false 1) 9).1).oldest ∧
      recv (send (Chan.mk 1024 (List.replicate 1024 (9 : Nat)) false 1) 9).1 0 =
        (.lagged (((send (Chan.mk 1024 (List.replicate 1024 (9 : Nat)) false 1) 9).1).oldest - 0),
          ((send (Chan.mk 1024 (List.replicate 1024 (9 : Nat)) false 1) 9).1).oldest)) :=
  ⟨⟨rfl, (publish_spec (channel Nat 1024) 9).1 rfl⟩,
   ⟨by decide,
    (publish_spec (Chan.mk 1024 (List.replicate 1024 (9 : Nat)) false 1) 9).2.1 (by decide)⟩,
   ⟨by decide,
    (publish_spec (Chan.mk 1024 (List.replicate 1024 (9 : Nat)) false 1) 9).2.2 0
      (by decide)⟩⟩

/-- C7: a subscriber session ends cleanly (`Ok(())`) the moment `recv`
returns `Closed`, writing nothing further; a transport write failure ends
the session with an error; and `Lagged` never ends the session — the loop
just continues, with exactly the same subsequent behaviour and no lost frame
resent. -/
theorem output_session_policy {α : Type} :
    (∀ evs : List (OutEvent α),
      process_output_stream (.recvClosed :: evs) = (.ok, [])) ∧
    (∀ (a : α) (evs : List (OutEvent α)),
      process_output_stream (.recvFrame a false :: evs) = (.err, [])) ∧
    (∀ (n : Nat) (evs : List (OutEvent α)),
      process_output_stream (.recvLagged n :: evs) = process_output_stream evs) :=
  ⟨fun _ => rfl, fun _ _ => rfl, fun _ _ => rfl⟩

/-- C8: a publisher session is never terminated by the outcome of a publish:
after a successful transport read the frame is handed to `tx.send` and the
loop continues with the updated channel, whatever `send` returned — in
particular on the fresh channel, where `send` reports no active receivers
and leaves the history untouched; a trace of only successful reads ends the
session with `Ok(())` having published every read frame in order; the
session ends with an error only on a transport read error (and with
`Ok(())` at end-of-stream). -/
theorem input_session_fire_and_forget {α : Type} :
    (∀ (s : Chan α) (f : α) (evs : List (InEvent α)),
      process_input_stream s (.readOk f :: evs) =
        process_input_stream (send s f).1 evs) ∧
    (∀ (f : α) (evs : List (InEvent α)),
      (send (channel α 1024) f).2 = Except.error () ∧
      process_input_stream (channel α 1024) (.readOk f :: evs) =
        process_input_stream (channel α 1024) evs) ∧
    (∀ (s : Chan α) (fs : List α),
      process_input_stream s (fs.map .readOk) = (sendAll s fs, .ok)) ∧
    (∀ (s : Chan α) (evs : List (InEvent α)),
      process_input_stream s (.readErr :: evs) = (s, .err)) := by
  refine ⟨fun s f evs => rfl, fun f evs => ⟨rfl, rfl⟩, ?_, fun s evs => rfl⟩
  intro s fs
  induction fs generalizing s with
  | nil => rfl
  | cons f fs IH =>
    show process_input_stream (send s f).1 (fs.map .readOk) = _
    rw [IH (send s f).1]
    rfl

/-- C9: for both listeners, a failed accept never terminates the accept
loop: the loop continues identically over the remaining incoming requests,
and over any finite incoming trace each loop spawns exactly one session per
successfully accepted connection, however many accept failures are
interspersed; the handler then returns `Ok(())`. -/
theorem accept_failure_continues {α : Type} :
    (∀ evs : List AcceptEvent,
      handle_input_loop (.acceptErr :: evs) = handle_input_loop evs) ∧
    (∀ (s : Chan α) (evs : List AcceptEvent),
      handle_output_loop s (.acceptErr :: evs) = handle_output_loop s evs) ∧
    (∀ evs : List AcceptEvent,
      handle_input .ok evs = (.ok, (evs.filter (· == .acceptOk)).length)) ∧
    (∀ (s : Chan α) (evs : List AcceptEvent),
      (handle_output .ok s evs).1 = .ok ∧
      (handle_output .ok s evs).2.2 = (evs.filter (· == .acceptOk)).length) := by
  refine ⟨fun evs => rfl, fun s evs => rfl, ?_, ?_⟩
  · intro evs
    unfold handle_input
    rw [handle_input_loop_count evs]
  · intro s evs
    exact ⟨rfl, handle_output_loop_count evs s⟩

/-- C10: the ring-buffer capacity is the constant 1024 from `main.rs:29` for
the whole process lifetime: the channel is created with capacity 1024 and no
operation changes it; any frame a subscription is ever delivered lies among
the 1024 most recently published (`pos ≤ cursor + 1024`); and a subscription
that has fallen more than 1024 frames behind the head necessarily observes
`Lagged` at its next pull. -/
theorem capacity_fixed_1024 {α : Type} [Inhabited α] :
    (channel α 1024).cap = 1024 ∧
    (∀ (s : Chan α) (f : α), ((send s f).1).cap = s.cap) ∧
    (∀ s : Chan α, ((subscribe s).2).cap = s.cap) ∧
    (∀ (s : Chan α) (c : Nat) (a : α) (c' : Nat), s.cap = 1024 →
      recv s c = (.frame a, c') → s.pos ≤ c + 1024 ∧ a = frameAt s c) ∧
    (∀ (s : Chan α) (c : Nat), s.cap = 1024 → 1024 < s.pos - c →
      (recv s c).1 = .lagged (s.pos - 1024 - c)) := by
  refine ⟨rfl, send_cap, fun s => rfl, ?_, ?_⟩
  · intro s c a c' hcap h
    unfold recv at h
    by_cases h1 : c < s.oldest
    · rw [if_pos h1] at h
      simp at h
    · by_cases h2 : c < s.pos
      · rw [if_neg h1, if_pos h2] at h
        simp only [Prod.mk.injEq, RecvResult.frame.injEq] at h
        refine ⟨?_, h.1.symm⟩
        unfold Chan.oldest at h1
        omega
      · rw [if_neg h1, if_neg h2] at h
        cases hcl : s.closed <;> rw [hcl] at h <;> simp at h
  · intro s c hcap hbehind
    have h1 : c < s.oldest := by
      unfold Chan.oldest
      omega
    have holdest : s.oldest = s.pos - 1024 := by
      unfold Chan.oldest
      omega
    unfold recv
    rw [if_pos h1, holdest]

/-- Witness for C10 at a concrete channel state: capacity 1024, 1030 frames
published; a cursor at 100 is delivered the in-window frame, a cursor at 0
observes `Lagged`. -/
theorem capacity_fixed_1024_witness :
    ((Chan.mk 1024 (List.replicate 1030 (7 : Nat)) false 1).cap = 1024 ∧
      recv (Chan.mk 1024 (List.replicate 1030 (7 : Nat)) false 1) 100 =
        (.frame 7, 101) ∧
      ((Chan.mk 1024 (List.replicate 1030 (7 : Nat)) false 1).pos ≤ 100 + 1024 ∧
        (7 : Nat) = frameAt (Chan.mk 1024 (List.replicate 1030 (7 : Nat)) false 1) 100)) ∧
    (1024 < (Chan.mk 1024 (List.replicate 1030 (7 : Nat)) false 1).pos - 0 ∧
      (recv (Chan.mk 1024 (List.replicate 1030 (7 : Nat)) false 1) 0).1 =
        .lagged ((Chan.mk 1024 (List.replicate 1030 (7 : Nat)) false 1).pos - 1024 - 0)) :=
  ⟨⟨rfl, by decide,
    (@capacity_fixed_1024 Nat _).2.2.2.1
      (Chan.mk 1024 (List.replicate 1030 (7 : Nat)) false 1) 100 7 101 rfl (by decide)⟩,
   ⟨by decide,
    (@capacity_fixed_1024 Nat _).2.2.2.2
      (Chan.mk 1024 (List.replicate 1030 (7 : Nat)) false 1) 0 rfl (by decide)⟩⟩
